import Mathlib

/-!
Shallow embedding of the Christian-art query-processing pipeline
(`ChristianArtAgent` in the repository's worker source) and proofs of the
spec's claims about it.

The agent's durable state (`ArtAgentState`), the artwork data model, the
four pipeline stages (`researchArtworks`, `fetchArtworkImages`,
`annotateArtworks`, completion) and the entry points (`onRequest` query
submission, the socket `onMessage` submission, `onConnect`, the
`/results` endpoint) are translated to pure Lean functions.  The external
collaborators (Workers-AI text completion, the puppeteer image resolver,
the KV cache) are modelled by an explicit environment `RunEnv` of
per-call outcomes; every control-flow decision the source makes on those
outcomes is reproduced.  `setState` in the agents SDK replaces the whole
state record, which is why the source spreads `...this.state` when it
wants a merge; the embedding mirrors each literal state object passed to
`setState`.
-/

namespace ChristianArt

/-- The `processingStage` values of the agent state. -/
inductive Stage
  | idle
  | analyzing
  | researching
  | fetching
  | annotating
  | complete
  | error
deriving DecidableEq

/-- `ArtworkInfo` from the source: a research-stage candidate. -/
structure ArtworkInfo where
  id : String
  title : String
  artist : String
  year : Int
  period : String
  location : String
  relevanceScore : Option Int
deriving DecidableEq

/-- `ArtworkWithImage`: a candidate plus resolved or placeholder image URL. -/
structure ArtworkWithImage extends ArtworkInfo where
  imageUrl : String
deriving DecidableEq

/-- The five-field `annotations` record of `AnnotatedArtwork`. -/
structure ArtNotes where
  historicalContext : String
  artisticStyle : String
  biblicalNarrative : String
  interestingDetails : List String
  uniqueInterpretation : String
deriving DecidableEq

/-- `AnnotatedArtwork`: image-bearing artwork plus its annotations. -/
structure AnnotatedArtwork extends ArtworkWithImage where
  annotations : ArtNotes
deriving DecidableEq

/-- `ArtAgentState` from the source; every field is optional because a fresh
agent starts with an empty state object.  `lastUpdated` timestamps are
modelled as naturals supplied by the environment. -/
structure ArtAgentState where
  currentQuery : Option String := none
  searchResults : Option (List ArtworkInfo) := none
  selectedWorks : Option (List AnnotatedArtwork) := none
  processingStage : Option Stage := none
  error : Option String := none
  lastUpdated : Option Nat := none
deriving DecidableEq

/-- The state of a freshly created agent: all fields undefined. -/
def initialState : ArtAgentState := {}

/-- The stage an observer sees: the source reads
`this.state.processingStage || 'idle'`. -/
def stageOf (s : ArtAgentState) : Stage := s.processingStage.getD .idle

/-! ### JavaScript `||`-defaulting semantics -/

/-- `x || d` for a possibly-absent string: absent and the empty string are
falsy in JavaScript, so both select the default. -/
def jsOrString : Option String → String → String
  | none, d => d
  | some s, d => if s = "" then d else s

/-- `x || d` for a possibly-absent number: absent and `0` are falsy. -/
def jsOrInt : Option Int → Int → Int
  | none, d => d
  | some n, d => if n = 0 then d else n

/-- `x || d` for a possibly-absent array: any array (even empty) is truthy,
so only absence selects the default. -/
def jsOrList : Option (List String) → List String → List String
  | none, d => d
  | some l, _ => l

/-! ### `encodeURIComponent`

The placeholder image URL embeds the title through the JavaScript builtin
`encodeURIComponent`, which leaves the unreserved characters
`A-Z a-z 0-9 - _ . ! ~ * ' ( )` alone and percent-encodes the UTF-8 bytes
of every other character with uppercase hexadecimal digits. -/

/-- Characters `encodeURIComponent` leaves unescaped. -/
def uriUnreserved (c : Char) : Bool :=
  (65 ≤ c.toNat && c.toNat ≤ 90) || (97 ≤ c.toNat && c.toNat ≤ 122) ||
  (48 ≤ c.toNat && c.toNat ≤ 57) ||
  c = '-' || c = '_' || c = '.' || c = '!' || c = '~' || c = '*' ||
  c = Char.ofNat 39 || c = '(' || c = ')'

/-- The UTF-8 bytes of a character, as naturals. -/
def utf8Bytes (c : Char) : List Nat :=
  let n := c.toNat
  if n < 128 then [n]
  else if n < 2048 then [192 + n / 64, 128 + n % 64]
  else if n < 65536 then [224 + n / 4096, 128 + (n / 64) % 64, 128 + n % 64]
  else [240 + n / 262144, 128 + (n / 4096) % 64, 128 + (n / 64) % 64, 128 + n % 64]

/-- Uppercase hexadecimal digit for a value below 16. -/
def hexChar (n : Nat) : Char :=
  if n < 10 then Char.ofNat (48 + n) else Char.ofNat (55 + n)

/-- Percent-encoding of one byte. -/
def percentByte (b : Nat) : List Char :=
  ['%', hexChar (b / 16), hexChar (b % 16)]

/-- The JavaScript builtin `encodeURIComponent`. -/
def encodeURIComponent (s : String) : String :=
  ⟨s.data.foldr
    (fun c acc =>
      (if uriUnreserved c then [c] else ((utf8Bytes c).map percentByte).flatten) ++ acc)
    []⟩

/-! ### External-call outcome environment -/

/-- One element of the research stage's parsed JSON array; `year`,
`period` and `location` may be absent (the source applies `||` defaults). -/
structure ParsedArtwork where
  title : String
  artist : String
  year : Option Int
  period : Option String
  location : Option String
deriving DecidableEq

/-- What the research-stage JSON extraction produced.  The source matches
the completion text against a regex requiring an object inside an array,
so a successful extraction always parses to a nonempty array; `failure`
covers a throwing completion call, a missing regex match, and a JSON
parse error (all caught and rethrown with one fixed message). -/
inductive ResearchOutcome
  | failure
  | parsed (first : ParsedArtwork) (rest : List ParsedArtwork)

/-- Outcome of the image-resolver page interaction for a single artwork.
`found url closedOk` : page evaluation returned the non-null string
`url`, and the subsequent `page.close()` resolved (`closedOk = true`) or
rejected (`closedOk = false`); `notFound closedOk` : evaluation returned
null, with the same `page.close()` split; `failed` : a page operation
threw before anything was pushed.  The split matters because the source
pushes the item before awaiting `page.close()` inside the per-item
`try`, so a rejected close lands in the catch handler after the push and
the catch pushes a placeholder copy of the same artwork a second time. -/
inductive ImageOutcome
  | found (url : String) (closedOk : Bool)
  | notFound (closedOk : Bool)
  | failed
deriving DecidableEq

/-- One artwork's parsed annotation JSON object; every field may be absent
(the source applies `||` defaults per field). -/
structure ParsedNotes where
  historicalContext : Option String
  artisticStyle : Option String
  biblicalNarrative : Option String
  interestingDetails : Option (List String)
  uniqueInterpretation : Option String
deriving DecidableEq

/-- Outcome of one artwork's annotation attempt: `failed` covers a
throwing completion call, a missing JSON match and a parse error (all
caught by the per-item handler). -/
inductive NotesOutcome
  | failed
  | parsed (p : ParsedNotes)
deriving DecidableEq

/-- Everything the outside world decides during one submission/run:
the timestamp, the research outcome, the per-item image and annotation
outcomes (indexed by the item's position), whether the browser session
launches and closes without throwing, whether the KV cache binding is
configured, and whether its get/put calls succeed. -/
structure RunEnv where
  now : Nat
  research : ResearchOutcome
  image : Nat → ImageOutcome
  notes : Nat → NotesOutcome
  launchOk : Bool
  closeOk : Bool
  hasCache : Bool
  cacheGetOk : Bool
  cachePutOk : Bool

/-! ### Research stage -/

/-- The id synthesized for the candidate at position `idx`:
the source writes the template string `artwork-<Date.now()>-<index>`. -/
def mkArtworkId (now idx : Nat) : String :=
  "artwork-" ++ Nat.repr now ++ "-" ++ Nat.repr idx

/-- The `artworks.map((artwork, index) => ...)` id-assignment and
field-defaulting loop of `researchArtworks`. -/
def buildArtworks (now : Nat) : Nat → List ParsedArtwork → List ArtworkInfo
  | _, [] => []
  | i, p :: rest =>
    { id := mkArtworkId now i
      title := p.title
      artist := p.artist
      year := jsOrInt p.year 0
      period := jsOrString p.period "Unknown"
      location := jsOrString p.location "Unknown"
      relevanceScore := none } :: buildArtworks now (i + 1) rest

/-- The error message `researchArtworks` rethrows on any failure. -/
def researchFailureMsg : String :=
  "Failed to research artworks for the biblical narrative"

/-- `researchArtworks` minus its leading `setState` (the state transition
is emitted by `processArtQuery` in this embedding): the completion call,
extraction, parse, and id assignment. -/
def researchArtworks (env : RunEnv) : Except String (List ArtworkInfo) :=
  match env.research with
  | .failure => .error researchFailureMsg
  | .parsed first rest => .ok (buildArtworks env.now 0 (first :: rest))

/-! ### Image-resolution stage -/

/-- The placeholder image URL substituted when resolution fails. -/
def placeholderImageUrl (title : String) : String :=
  "https://placekitten.com/600/400?text=" ++ encodeURIComponent title

/-- The single item the per-item `try` body pushes when the page
interaction reaches the push: a non-null truthy URL is attached as-is; a
null or empty (falsy) evaluation result attaches the placeholder. -/
def resolveOne (a : ArtworkInfo) (o : ImageOutcome) : ArtworkWithImage :=
  match o with
  | .found url _ =>
    if url = "" then { toArtworkInfo := a, imageUrl := placeholderImageUrl a.title }
    else { toArtworkInfo := a, imageUrl := url }
  | .notFound _ => { toArtworkInfo := a, imageUrl := placeholderImageUrl a.title }
  | .failed => { toArtworkInfo := a, imageUrl := placeholderImageUrl a.title }

/-- Everything one iteration of the `fetchArtworkImages` loop pushes for
its artwork: the resolved or placeholder item; when `page.close()`
rejects after that push, additionally the placeholder copy pushed by the
catch handler; when a page operation throws before the push, only the
catch handler's placeholder. -/
def resolveImage (a : ArtworkInfo) (o : ImageOutcome) : List ArtworkWithImage :=
  match o with
  | .found url closedOk =>
    if closedOk then [resolveOne a (.found url closedOk)]
    else [resolveOne a (.found url closedOk),
      { toArtworkInfo := a, imageUrl := placeholderImageUrl a.title }]
  | .notFound closedOk =>
    if closedOk then [{ toArtworkInfo := a, imageUrl := placeholderImageUrl a.title }]
    else [{ toArtworkInfo := a, imageUrl := placeholderImageUrl a.title },
      { toArtworkInfo := a, imageUrl := placeholderImageUrl a.title }]
  | .failed => [{ toArtworkInfo := a, imageUrl := placeholderImageUrl a.title }]

/-- Whether the per-item page interaction closed its page cleanly, i.e.
did not take the rejected-`page.close()` path that pushes the same
artwork twice (a thrown page operation never reaches the first push, so
`failed` counts as clean). -/
def closedCleanly : ImageOutcome → Bool
  | .found _ closedOk => closedOk
  | .notFound closedOk => closedOk
  | .failed => true

/-- The `for (const artwork of artworks)` loop of `fetchArtworkImages`,
appending each iteration's pushes in candidate order. -/
def fetchLoop (image : Nat → ImageOutcome) : Nat → List ArtworkInfo → List ArtworkWithImage
  | _, [] => []
  | i, a :: rest => resolveImage a (image i) ++ fetchLoop image (i + 1) rest

/-- `fetchArtworkImages` minus its leading `setState`: the
`puppeteer.launch` call precedes the per-item `try` and the
`finally browser.close()` follows it, so either throwing escapes the
function; every per-item failure is absorbed inside the loop. -/
def fetchArtworkImages (env : RunEnv) (artworks : List ArtworkInfo) :
    Except String (List ArtworkWithImage) :=
  if env.launchOk then
    if env.closeOk then .ok (fetchLoop env.image 0 artworks)
    else .error "browser session failed to close"
  else .error "browser session failed to launch"

/-! ### Annotation stage -/

/-- The fixed per-item fallback text of the annotation stage's catch
handler. -/
def unavailableMsg : String := "Information could not be generated at this time."

/-- The annotations block pushed by the per-item catch handler. -/
def defaultNotes : ArtNotes :=
  { historicalContext := unavailableMsg
    artisticStyle := unavailableMsg
    biblicalNarrative := unavailableMsg
    interestingDetails := [unavailableMsg]
    uniqueInterpretation := unavailableMsg }

/-- The per-item body of the `annotateArtworks` loop: successful
extraction maps each JSON field through its `||` default; any failure
pushes the artwork with the fixed fallback block. -/
def annotateOne (a : ArtworkWithImage) (o : NotesOutcome) : AnnotatedArtwork :=
  match o with
  | .failed => { toArtworkWithImage := a, annotations := defaultNotes }
  | .parsed p =>
    { toArtworkWithImage := a
      annotations :=
        { historicalContext := jsOrString p.historicalContext "Historical context information unavailable"
          artisticStyle := jsOrString p.artisticStyle "Artistic style information unavailable"
          biblicalNarrative := jsOrString p.biblicalNarrative "Biblical narrative interpretation unavailable"
          interestingDetails := jsOrList p.interestingDetails ["Detail information unavailable"]
          uniqueInterpretation := jsOrString p.uniqueInterpretation "Unique interpretation information unavailable" } }

/-- The `for (const artwork of artworks)` loop of `annotateArtworks`. -/
def annotateLoop (notes : Nat → NotesOutcome) : Nat → List ArtworkWithImage → List AnnotatedArtwork
  | _, [] => []
  | i, a :: rest => annotateOne a (notes i) :: annotateLoop notes (i + 1) rest

/-- `annotateArtworks` minus its leading `setState`: total, never throws. -/
def annotateArtworks (env : RunEnv) (artworks : List ArtworkWithImage) :
    List AnnotatedArtwork :=
  annotateLoop env.notes 0 artworks

/-! ### Result cache (the `ART_CACHE` KV namespace) -/

/-- The KV store, newest entry first; `put` on an existing key shadows it. -/
abbrev Cache := List (String × List AnnotatedArtwork)

/-- `ART_CACHE.get("query:" ++ q)`, modelled as association-list lookup. -/
def cacheGet (c : Cache) (q : String) : Option (List AnnotatedArtwork) :=
  List.lookup q c

/-- `ART_CACHE.put("query:" ++ q, ...)`. -/
def cachePut (c : Cache) (q : String) (works : List AnnotatedArtwork) : Cache :=
  (q, works) :: c

/-! ### The pipeline orchestrator `processArtQuery` -/

/-- The successive states written by `setState` during one run, the cache
after the run, and how many times the run invoked the text-completion
client and performed an image-resolver page interaction. -/
structure RunResult where
  states : List ArtAgentState
  cache : Cache
  completionCalls : Nat
  resolverCalls : Nat

/-- A stage-transition `setState` spreading the previous state. -/
def toStage (s : ArtAgentState) (st : Stage) (now : Nat) : ArtAgentState :=
  { s with
      processingStage := some st
      lastUpdated := some now }

/-- The `catch` block of `processArtQuery`: spread the previous state and
set the stage to `error` with the thrown message. -/
def toErrorState (s : ArtAgentState) (msg : String) (now : Nat) : ArtAgentState :=
  { s with
      processingStage := some .error
      error := some msg
      lastUpdated := some now }

/-- The completion `setState`: spread the previous state, set
`selectedWorks` and stage `complete` in the same mutation. -/
def toCompleteState (s : ArtAgentState) (works : List AnnotatedArtwork) (now : Nat) :
    ArtAgentState :=
  { s with
      selectedWorks := some works
      processingStage := some .complete
      lastUpdated := some now }

/-- `processArtQuery`, started from the state `s0` the submission wrote:
research (throwing aborts to the `error` state), image resolution
(browser launch/close throwing aborts to the `error` state), annotation
(total), then the `complete` state and the guarded cache write. -/
def processArtQuery (s0 : ArtAgentState) (c : Cache) (env : RunEnv) (q : String) :
    RunResult :=
  let s1 := toStage s0 .researching env.now
  match researchArtworks env with
  | .error msg => ⟨[s1, toErrorState s1 msg env.now], c, 1, 0⟩
  | .ok arts =>
    let s2 := toStage s1 .fetching env.now
    match fetchArtworkImages env arts with
    | .error msg =>
      ⟨[s1, s2, toErrorState s2 msg env.now], c, 1,
        if env.launchOk then arts.length else 0⟩
    | .ok withImages =>
      let s3 := toStage s2 .annotating env.now
      let works := annotateArtworks env withImages
      let s4 := toCompleteState s3 works env.now
      let c2 : Cache :=
        if env.hasCache && env.cachePutOk && decide (0 < works.length)
        then cachePut c q works else c
      ⟨[s1, s2, s3, s4], c2, 1 + works.length, arts.length⟩

/-! ### Submission entry points -/

/-- The state written by a query submission (both the HTTP handler and the
socket message handler): a full replacement, clearing any previous
`selectedWorks` and `error`. -/
def analyzingState (q : String) (now : Nat) : ArtAgentState :=
  { currentQuery := some q
    processingStage := some .analyzing
    lastUpdated := some now }

/-- The state written by the HTTP handler on a cache hit: a full
replacement carrying the cached artworks and stage `complete`. -/
def cachedCompleteState (q : String) (works : List AnnotatedArtwork) (now : Nat) :
    ArtAgentState :=
  { currentQuery := some q
    selectedWorks := some works
    processingStage := some .complete
    lastUpdated := some now }

/-- A cache-missing submission: write the `analyzing` state, then the
scheduled `processArtQuery` run. -/
def runPipeline (c : Cache) (q : String) (env : RunEnv) : RunResult :=
  let r := processArtQuery (analyzingState q env.now) c env q
  ⟨analyzingState q env.now :: r.states, r.cache, r.completionCalls, r.resolverCalls⟩

/-- The `POST /query` path of `onRequest`: a falsy query is rejected with
a 400 and no state change; otherwise the cache is consulted (when the
binding exists and the read does not throw) and a hit short-circuits to
the `complete` state with zero external calls; a miss runs the pipeline. -/
def submitHTTP (_s : ArtAgentState) (c : Cache) (q : String) (env : RunEnv) :
    RunResult :=
  if q = "" then ⟨[], c, 0, 0⟩
  else
    match (if env.hasCache && env.cacheGetOk then cacheGet c q else none) with
    | some works => ⟨[cachedCompleteState q works env.now], c, 0, 0⟩
    | none => runPipeline c q env

/-- The socket `onMessage` handler's `query` branch: it never consults the
cache; it always resets to `analyzing` and schedules the pipeline. -/
def submitWS (_s : ArtAgentState) (c : Cache) (q : String) (env : RunEnv) :
    RunResult :=
  runPipeline c q env

/-! ### Observers: `/results` and `onConnect` -/

/-- The JSON body of `GET .../results`: a normal not-ready message (never
an error response) unless the stage is `complete`. -/
inductive ResultsResp
  | notReady (st : Stage) (err : Option String)
  | ready (query : Option String) (artworks : Option (List AnnotatedArtwork))
deriving DecidableEq

/-- The `/results` branch of `onRequest`. -/
def resultsResponse (s : ArtAgentState) : ResultsResp :=
  if s.processingStage = some .complete then .ready s.currentQuery s.selectedWorks
  else .notReady (stageOf s) s.error

/-- Messages a socket channel can receive. -/
inductive WsMsg
  | stateMsg (st : Stage) (query : Option String) (err : Option String)
  | resultsMsg (query : Option String) (artworks : List AnnotatedArtwork)
deriving DecidableEq

/-- `onConnect`: immediately send the state snapshot, and additionally the
results when the stage is `complete` and `selectedWorks` is set (any
array, even empty, is truthy). -/
def onConnect (s : ArtAgentState) : List WsMsg :=
  WsMsg.stateMsg (stageOf s) s.currentQuery s.error ::
    (match s.processingStage, s.selectedWorks with
     | some .complete, some works => [WsMsg.resultsMsg s.currentQuery works]
     | _, _ => [])

/-! ### Reachable agent states

One logical session mutates its state only through the two submission
entry points; every state a submission's run writes (including the
intermediate stage states) is observable by `/status`, `/results` and
`onConnect`.  The relation below over-approximates slightly by letting
the next submission start from any state of the previous trace, which is
harmless for the invariants proved here. -/

/-- States and caches a session can exhibit. -/
inductive Reachable : ArtAgentState → Cache → Prop
  | init : Reachable initialState []
  | http {s c} (h : Reachable s c) (q : String) (env : RunEnv) {s2}
      (hs : s2 ∈ (submitHTTP s c q env).states) :
      Reachable s2 (submitHTTP s c q env).cache
  | ws {s c} (h : Reachable s c) (q : String) (env : RunEnv) {s2}
      (hs : s2 ∈ (submitWS s c q env).states) :
      Reachable s2 (submitWS s c q env).cache

/-! ### Default elements used with `List.getD` -/

/-- Default `ArtworkInfo` for positional indexing. -/
def blankInfo : ArtworkInfo :=
  { id := ""
    title := ""
    artist := ""
    year := 0
    period := ""
    location := ""
    relevanceScore := none }

/-- Default `ArtworkWithImage` for positional indexing. -/
def blankWithImage : ArtworkWithImage :=
  { toArtworkInfo := blankInfo, imageUrl := "" }

/-- Default `AnnotatedArtwork` for positional indexing. -/
def blankAnnotated : AnnotatedArtwork :=
  { toArtworkWithImage := blankWithImage, annotations := defaultNotes }

/-! ### The stage-transition relation of the state machine claim -/

/-- The transitions the spec's state machine allows: the forward chain
`idle → analyzing → researching → fetching → annotating → complete`, and
`error` from `analyzing`, `researching`, `fetching` or `annotating`. -/
def claimStep (a b : Stage) : Bool :=
  match a, b with
  | .idle, .analyzing => true
  | .analyzing, .researching => true
  | .researching, .fetching => true
  | .fetching, .annotating => true
  | .annotating, .complete => true
  | .analyzing, .error => true
  | .researching, .error => true
  | .fetching, .error => true
  | .annotating, .error => true
  | _, _ => false

/-! ### Session invariants -/

/-- The per-state invariant: an error message only at stage `error`;
`selectedWorks` only at stage `complete`; at stage `complete` a nonempty
result list and a query are always present. -/
def stateInv (s : ArtAgentState) : Prop :=
  (s.error.isSome → s.processingStage = some .error) ∧
  (s.selectedWorks.isSome → s.processingStage = some .complete) ∧
  (s.processingStage = some .complete →
    ∃ works, s.selectedWorks = some works ∧ works ≠ [] ∧ s.currentQuery.isSome)

/-- The cache invariant: every stored result list is nonempty (the source
guards the write with a length check). -/
def cacheInv (c : Cache) : Prop := ∀ p ∈ c, p.2 ≠ ([] : List AnnotatedArtwork)

/-! ### Decimal rendering, for the candidate-id distinctness proof

`Nat.repr` is defined through the fuel-based `Nat.toDigitsCore`; the
fuel-free `decRepr` below computes the same character list and supports
induction. -/

/-- Fuel-free decimal rendering, most significant digit first, matching
the structure of `Nat.toDigitsCore` at base 10. -/
def decRepr (n : Nat) : List Char :=
  if h : n / 10 = 0 then [Nat.digitChar (n % 10)]
  else decRepr (n / 10) ++ [Nat.digitChar (n % 10)]
termination_by n
decreasing_by
  exact Nat.div_lt_self (Nat.pos_of_ne_zero (fun h0 => h (by simp [h0]))) (by omega)

/-! ### Concrete environments used by witnesses and counterexamples -/

/-- A concrete parsed research candidate. -/
def exParsed : ParsedArtwork :=
  { title := "The Last Supper"
    artist := "Leonardo da Vinci"
    year := some 1498
    period := some "High Renaissance"
    location := some "Santa Maria delle Grazie" }

/-- A concrete parsed annotation object with every field present. -/
def exNotes : ParsedNotes :=
  { historicalContext := some "hc"
    artisticStyle := some "as"
    biblicalNarrative := some "bn"
    interestingDetails := some ["d1", "d2"]
    uniqueInterpretation := some "ui" }

/-- A fully successful run environment. -/
def exEnv : RunEnv :=
  { now := 7
    research := .parsed exParsed []
    image := fun _ => .found "http://images.example/supper.jpg" true
    notes := fun _ => .parsed exNotes
    launchOk := true
    closeOk := true
    hasCache := true
    cacheGetOk := true
    cachePutOk := true }

/-- The successful environment, except the browser session fails to
launch during the image-resolution stage. -/
def exEnvLaunchFail : RunEnv := { exEnv with launchOk := false }

/-- The successful environment, except the research completion yields no
extractable JSON. -/
def exEnvResearchFail : RunEnv := { exEnv with research := .failure }

/-- The successful environment, with the image resolver failing for every
item. -/
def exEnvImageFail : RunEnv := { exEnv with image := fun _ => .failed }

/-- The successful environment, except every item's `page.close()`
rejects after the placeholder was pushed (evaluation returned null), so
each iteration pushes its artwork twice. -/
def exEnvCloseRejected : RunEnv := { exEnv with image := fun _ => .notFound false }

/-- The successful environment, with annotation extraction failing for
every item. -/
def exEnvNotesFail : RunEnv := { exEnv with notes := fun _ => .failed }

/-! ## Lemmas: decimal rendering is injective -/

theorem toDigitsCore_eq_decRepr (fuel : Nat) :
    ∀ (n : Nat) (ds : List Char), n < fuel →
      Nat.toDigitsCore 10 fuel n ds = decRepr n ++ ds := by
  induction fuel with
  | zero => intro n ds h; omega
  | succ f ih =>
    intro n ds h
    rw [Nat.toDigitsCore]
    by_cases h0 : n / 10 = 0
    · rw [if_pos h0, decRepr, dif_pos h0]
      simp
    · rw [if_neg h0, ih (n / 10) _ (by omega),
        show decRepr n = decRepr (n / 10) ++ [Nat.digitChar (n % 10)] from by
          rw [decRepr, dif_neg h0]]
      simp

theorem toDigits_eq_decRepr (n : Nat) : Nat.toDigits 10 n = decRepr n := by
  rw [Nat.toDigits, toDigitsCore_eq_decRepr (n + 1) n [] (Nat.lt_succ_self n),
    List.append_nil]

theorem digitChar_val : ∀ d : Nat, d < 10 → (Nat.digitChar d).toNat - 48 = d := by
  decide

theorem decVal_decRepr (n : Nat) :
    ∀ acc : Nat,
      (decRepr n).foldl (fun a c => a * 10 + (c.toNat - 48)) acc
        = acc * 10 ^ (decRepr n).length + n := by
  induction n using Nat.strong_induction_on with
  | _ n ih =>
    intro acc
    by_cases h0 : n / 10 = 0
    · rw [decRepr, dif_pos h0]
      simp only [List.foldl, List.length_cons, List.length_nil]
      rw [digitChar_val (n % 10) (by omega)]
      have hn : n % 10 = n := by omega
      simp [hn]
    · rw [decRepr, dif_neg h0]
      rw [List.foldl_append]
      rw [ih (n / 10) (Nat.div_lt_self (by omega) (by omega)) acc]
      simp only [List.foldl, List.length_append, List.length_cons, List.length_nil]
      rw [digitChar_val (n % 10) (by omega)]
      rw [pow_succ]
      have : n = 10 * (n / 10) + n % 10 := (Nat.div_add_mod n 10).symm ▸ rfl
      ring_nf
      omega

theorem decRepr_injective : Function.Injective decRepr := by
  intro m n h
  have hm := decVal_decRepr m 0
  have hn := decVal_decRepr n 0
  rw [h] at hm
  simp only [Nat.zero_mul, Nat.zero_add] at hm hn
  omega

theorem natRepr_injective : Function.Injective Nat.repr := by
  intro m n h
  apply decRepr_injective
  have hd : (Nat.toDigits 10 m) = Nat.toDigits 10 n := by
    have h2 := congrArg String.data h
    simpa [Nat.repr, List.asString] using h2
  rwa [toDigits_eq_decRepr, toDigits_eq_decRepr] at hd

theorem mkArtworkId_injective (now : Nat) : Function.Injective (mkArtworkId now) := by
  intro i j h
  apply natRepr_injective
  apply String.ext
  have h2 := congrArg String.data h
  simp only [mkArtworkId, String.data_append, List.append_assoc] at h2
  exact List.append_cancel_left (List.append_cancel_left (List.append_cancel_left h2))

/-! ## Lemmas: the per-item stage loops -/

theorem buildArtworks_length (now : Nat) :
    ∀ (i : Nat) (l : List ParsedArtwork), (buildArtworks now i l).length = l.length := by
  intro i l
  induction l generalizing i with
  | nil => rfl
  | cons p rest ih => simp [buildArtworks, ih]

theorem buildArtworks_map_id (now : Nat) :
    ∀ (i : Nat) (l : List ParsedArtwork),
      (buildArtworks now i l).map (fun a => a.id)
        = (List.range l.length).map (fun k => mkArtworkId now (i + k)) := by
  intro i l
  induction l generalizing i with
  | nil => rfl
  | cons p rest ih =>
    simp only [buildArtworks, List.map_cons, List.length_cons, List.range_succ_eq_map,
      ih (i + 1), List.map_map]
    refine congrArg₂ _ (by simp) ?_
    refine congrArg₂ _ (funext fun k => ?_) rfl
    simp only [Function.comp]
    exact congrArg (mkArtworkId now) (by omega)

theorem resolveOne_toInfo (a : ArtworkInfo) (o : ImageOutcome) :
    (resolveOne a o).toArtworkInfo = a := by
  cases o with
  | found url closedOk => rw [resolveOne]; split <;> rfl
  | notFound closedOk => rfl
  | failed => rfl

theorem resolveImage_ne_nil (a : ArtworkInfo) (o : ImageOutcome) :
    resolveImage a o ≠ [] := by
  cases o with
  | found url closedOk => cases closedOk <;> simp [resolveImage]
  | notFound closedOk => cases closedOk <;> simp [resolveImage]
  | failed => simp [resolveImage]

theorem mem_resolveImage (a : ArtworkInfo) (o : ImageOutcome) :
    ∀ w ∈ resolveImage a o, w = resolveOne a o ∨
      w = { toArtworkInfo := a, imageUrl := placeholderImageUrl a.title } := by
  intro w hw
  cases o with
  | found url closedOk => cases closedOk <;> simp [resolveImage] at hw <;> tauto
  | notFound closedOk => cases closedOk <;> simp [resolveImage, resolveOne] at hw <;> tauto
  | failed => simp [resolveImage, resolveOne] at hw; tauto

theorem resolveImage_mem_toInfo (a : ArtworkInfo) (o : ImageOutcome) :
    ∀ w ∈ resolveImage a o, w.toArtworkInfo = a := by
  intro w hw
  rcases mem_resolveImage a o w hw with h | h <;> subst h
  · exact resolveOne_toInfo a o
  · rfl

theorem resolveImage_fail_urls (a : ArtworkInfo) (o : ImageOutcome)
    (h : o = .failed ∨ ∃ b, o = .notFound b) :
    ∀ w ∈ resolveImage a o, w.imageUrl = placeholderImageUrl a.title := by
  intro w hw
  rcases h with h | ⟨b, h⟩ <;> subst h
  · simp [resolveImage] at hw
    subst hw
    rfl
  · cases b with
    | false =>
      simp [resolveImage] at hw
      subst hw
      rfl
    | true =>
      simp [resolveImage] at hw
      subst hw
      rfl

theorem placeholder_mem_resolveImage (a : ArtworkInfo) (o : ImageOutcome)
    (h : o = .failed ∨ ∃ b, o = .notFound b) :
    ({ toArtworkInfo := a, imageUrl := placeholderImageUrl a.title } : ArtworkWithImage)
      ∈ resolveImage a o := by
  rcases h with h | ⟨b, h⟩ <;> subst h
  · simp [resolveImage]
  · cases b <;> simp [resolveImage]

theorem fetchLoop_join (f : Nat → ImageOutcome) :
    ∀ (l : List ArtworkInfo) (i : Nat),
      fetchLoop f i l
        = ((List.range l.length).map
            (fun j => resolveImage (l.getD j blankInfo) (f (i + j)))).flatten := by
  intro l
  induction l with
  | nil => intro i; rfl
  | cons a rest ih =>
    intro i
    simp only [fetchLoop, List.length_cons, List.range_succ_eq_map, List.map_cons,
      List.map_map, List.flatten_cons]
    rw [ih (i + 1)]
    refine congrArg₂ _ (by simp) ?_
    refine congrArg _ (congrArg₂ _ (funext fun j => ?_) rfl)
    simp only [Function.comp, List.getD_cons_succ]
    have harg : i + 1 + j = i + (j + 1) := by omega
    rw [harg]

theorem fetchLoop_length_pos (f : Nat → ImageOutcome) (i : Nat)
    (l : List ArtworkInfo) (h : l ≠ []) : 0 < (fetchLoop f i l).length := by
  cases l with
  | nil => exact absurd rfl h
  | cons a rest =>
    simp only [fetchLoop, List.length_append]
    have hpos : 0 < (resolveImage a (f i)).length :=
      List.length_pos.mpr (resolveImage_ne_nil a (f i))
    omega

theorem resolveImage_clean (a : ArtworkInfo) (o : ImageOutcome)
    (h : closedCleanly o = true) : resolveImage a o = [resolveOne a o] := by
  cases o with
  | found url closedOk =>
    cases closedOk with
    | false => simp [closedCleanly] at h
    | true => rfl
  | notFound closedOk =>
    cases closedOk with
    | false => simp [closedCleanly] at h
    | true => rfl
  | failed => rfl

theorem fetchLoop_clean_length (f : Nat → ImageOutcome) :
    ∀ (l : List ArtworkInfo) (i : Nat),
      (∀ j, j < l.length → closedCleanly (f (i + j)) = true) →
      (fetchLoop f i l).length = l.length := by
  intro l
  induction l with
  | nil => intro i h; rfl
  | cons a rest ih =>
    intro i h
    have h0 : closedCleanly (f i) = true := by simpa using h 0 (by simp)
    have hrest : (fetchLoop f (i + 1) rest).length = rest.length := by
      apply ih
      intro j hj
      have h2 := h (j + 1) (by simp; omega)
      have harg : i + (j + 1) = i + 1 + j := by omega
      rwa [harg] at h2
    rw [fetchLoop, resolveImage_clean a (f i) h0, List.singleton_append,
      List.length_cons, hrest]
    simp

theorem fetchLoop_clean_getD (f : Nat → ImageOutcome) :
    ∀ (l : List ArtworkInfo) (i j : Nat),
      (∀ k, k < l.length → closedCleanly (f (i + k)) = true) →
      j < l.length →
      (fetchLoop f i l).getD j blankWithImage
        = resolveOne (l.getD j blankInfo) (f (i + j)) := by
  intro l
  induction l with
  | nil => intro i j h hj; simp at hj
  | cons a rest ih =>
    intro i j h hj
    have h0 : closedCleanly (f i) = true := by simpa using h 0 (by simp)
    rw [fetchLoop, resolveImage_clean a (f i) h0, List.singleton_append]
    cases j with
    | zero => simp
    | succ k =>
      have hclean : ∀ m, m < rest.length → closedCleanly (f (i + 1 + m)) = true := by
        intro m hm
        have h2 := h (m + 1) (by simp; omega)
        have harg : i + (m + 1) = i + 1 + m := by omega
        rwa [harg] at h2
      simp only [List.getD_cons_succ]
      rw [ih (i + 1) k hclean (by simp at hj; omega)]
      have harg : i + 1 + k = i + (k + 1) := by omega
      rw [harg]

theorem annotateLoop_length (f : Nat → NotesOutcome) :
    ∀ (i : Nat) (l : List ArtworkWithImage), (annotateLoop f i l).length = l.length := by
  intro i l
  induction l generalizing i with
  | nil => rfl
  | cons a rest ih => simp [annotateLoop, ih]

theorem annotateLoop_getD (f : Nat → NotesOutcome) :
    ∀ (l : List ArtworkWithImage) (i j : Nat), j < l.length →
      (annotateLoop f i l).getD j blankAnnotated
        = annotateOne (l.getD j blankWithImage) (f (i + j)) := by
  intro l
  induction l with
  | nil => intro i j h; simp at h
  | cons a rest ih =>
    intro i j h
    cases j with
    | zero => simp [annotateLoop]
    | succ k =>
      simp only [annotateLoop, List.getD_cons_succ]
      rw [ih (i + 1) k (by simp at h; omega)]
      have harg : i + 1 + k = i + (k + 1) := by omega
      rw [harg]

theorem annotateOne_toWithImage (a : ArtworkWithImage) (o : NotesOutcome) :
    (annotateOne a o).toArtworkWithImage = a := by
  cases o <;> rfl

theorem placeholderImageUrl_ne_empty (t : String) : placeholderImageUrl t ≠ "" := by
  intro h
  have h2 := congrArg String.data h
  simp only [placeholderImageUrl, String.data_append] at h2
  rcases List.append_eq_nil.mp h2 with ⟨h3, _⟩
  exact absurd h3 (by decide)

/-! ## Lemmas: session invariants -/

theorem annotateArtworks_length (env : RunEnv) (l : List ArtworkWithImage) :
    (annotateArtworks env l).length = l.length := by
  simp [annotateArtworks, annotateLoop_length]

theorem pipelineWorks_ne_nil (env : RunEnv) (a : ParsedArtwork)
    (rest : List ParsedArtwork) :
    annotateArtworks env (fetchLoop env.image 0 (buildArtworks env.now 0 (a :: rest)))
      ≠ [] := by
  intro hnil
  have hlen := congrArg List.length hnil
  rw [annotateArtworks_length] at hlen
  have hpos := fetchLoop_length_pos env.image 0 (buildArtworks env.now 0 (a :: rest))
    (by simp [buildArtworks])
  simp only [List.length_nil] at hlen
  omega

theorem stateInv_initial : stateInv initialState := by
  simp [stateInv, initialState]

theorem runPipeline_states_inv (c : Cache) (q : String) (env : RunEnv) :
    ∀ s2 ∈ (runPipeline c q env).states, stateInv s2 := by
  intro s2 hs
  rcases henv : env.research with _ | ⟨a, rest⟩
  · simp only [runPipeline, processArtQuery, researchArtworks, henv,
      List.mem_cons, List.mem_singleton, List.not_mem_nil, or_false] at hs
    rcases hs with h | h | h <;> subst h <;>
      simp [stateInv, analyzingState, toStage, toErrorState]
  · by_cases hl : env.launchOk
    · by_cases hcl : env.closeOk
      · simp only [runPipeline, processArtQuery, researchArtworks, henv,
          fetchArtworkImages, hl, hcl, if_true, List.mem_cons, List.mem_singleton,
          List.not_mem_nil, or_false] at hs
        rcases hs with h | h | h | h | h <;> subst h <;>
          simp [stateInv, analyzingState, toStage, toCompleteState]
        exact pipelineWorks_ne_nil env a rest
      · simp only [runPipeline, processArtQuery, researchArtworks, henv,
          fetchArtworkImages, hl, hcl, if_true, if_false, Bool.false_eq_true,
          List.mem_cons, List.mem_singleton, List.not_mem_nil, or_false] at hs
        rcases hs with h | h | h | h <;> subst h <;>
          simp [stateInv, analyzingState, toStage, toErrorState]
    · simp only [runPipeline, processArtQuery, researchArtworks, henv,
        fetchArtworkImages, hl, if_false, Bool.false_eq_true, List.mem_cons,
        List.mem_singleton, List.not_mem_nil, or_false] at hs
      rcases hs with h | h | h | h <;> subst h <;>
        simp [stateInv, analyzingState, toStage, toErrorState]

theorem cachePut_inv {c : Cache} {q : String} {works : List AnnotatedArtwork}
    (hc : cacheInv c) (hw : works ≠ []) : cacheInv (cachePut c q works) := by
  intro p hp
  rcases List.mem_cons.mp hp with h | h
  · subst h; exact hw
  · exact hc p h

theorem cacheGet_ne_nil {c : Cache} {q : String} {works : List AnnotatedArtwork}
    (hc : cacheInv c) (h : cacheGet c q = some works) : works ≠ [] := by
  obtain ⟨l1, l2, hl, _⟩ := List.lookup_eq_some_iff.mp h
  exact hc (q, works) (hl ▸ List.mem_append_right l1 (List.mem_cons_self _ _))

theorem runPipeline_cache_inv (c : Cache) (q : String) (env : RunEnv)
    (hc : cacheInv c) : cacheInv (runPipeline c q env).cache := by
  rcases henv : env.research with _ | ⟨a, rest⟩
  · simpa [runPipeline, processArtQuery, researchArtworks, henv] using hc
  · by_cases hl : env.launchOk
    · by_cases hcl : env.closeOk
      · simp only [runPipeline, processArtQuery, researchArtworks, henv,
          fetchArtworkImages, hl, hcl, if_true]
        split
        · exact cachePut_inv hc (pipelineWorks_ne_nil env a rest)
        · exact hc
      · simpa [runPipeline, processArtQuery, researchArtworks, henv,
          fetchArtworkImages, hl, hcl] using hc
    · simpa [runPipeline, processArtQuery, researchArtworks, henv,
        fetchArtworkImages, hl] using hc

theorem submitHTTP_states_inv (s : ArtAgentState) (c : Cache) (q : String)
    (env : RunEnv) (hc : cacheInv c) :
    ∀ s2 ∈ (submitHTTP s c q env).states, stateInv s2 := by
  intro s2 hs
  by_cases hq : q = ""
  · simp [submitHTTP, hq] at hs
  · rw [submitHTTP, if_neg hq] at hs
    rcases hget : (if env.hasCache && env.cacheGetOk then cacheGet c q else none) with
      _ | works
    · rw [hget] at hs
      exact runPipeline_states_inv c q env s2 hs
    · rw [hget] at hs
      simp only [List.mem_singleton] at hs
      subst hs
      have hw : works ≠ [] := by
        rcases hcond : env.hasCache && env.cacheGetOk with _ | _
        · rw [hcond] at hget; simp at hget
        · rw [hcond] at hget; simp only [if_true] at hget
          exact cacheGet_ne_nil hc hget
      simp [stateInv, cachedCompleteState, hw]

theorem submitHTTP_cache_inv (s : ArtAgentState) (c : Cache) (q : String)
    (env : RunEnv) (hc : cacheInv c) : cacheInv (submitHTTP s c q env).cache := by
  by_cases hq : q = ""
  · simpa [submitHTTP, hq] using hc
  · rw [submitHTTP, if_neg hq]
    rcases hget : (if env.hasCache && env.cacheGetOk then cacheGet c q else none) with
      _ | works
    · exact runPipeline_cache_inv c q env hc
    · exact hc

theorem reachable_inv {s : ArtAgentState} {c : Cache} (h : Reachable s c) :
    stateInv s ∧ cacheInv c := by
  induction h with
  | init => exact ⟨stateInv_initial, fun p hp => absurd hp (List.not_mem_nil p)⟩
  | http h q env hs ih =>
    exact ⟨submitHTTP_states_inv _ _ q env ih.2 _ hs,
      submitHTTP_cache_inv _ _ q env ih.2⟩
  | ws h q env hs ih =>
    exact ⟨runPipeline_states_inv _ q env _ hs, runPipeline_cache_inv _ q env ih.2⟩

/-! ## The claims -/

/-- C2: in the image-resolution stage, an item for which the resolver
fails (a thrown page operation) or returns no image still appends the
artwork with the non-empty placeholder `imageUrl` (never null or
absent); the stage output is the in-order concatenation of per-item
results, each depending only on its own item and its own outcome, so one
item's failure neither changes any other item's processing nor aborts
the pipeline (the stage still returns a result list). -/
theorem claimC2_image_failures_isolated (artworks : List ArtworkInfo) (env : RunEnv)
    (i : Nat) (hl : env.launchOk = true) (hcl : env.closeOk = true)
    (hi : i < artworks.length)
    (hfail : env.image i = .failed ∨ ∃ b, env.image i = .notFound b) :
    fetchArtworkImages env artworks = .ok (fetchLoop env.image 0 artworks) ∧
    fetchLoop env.image 0 artworks
      = ((List.range artworks.length).map
          (fun j => resolveImage (artworks.getD j blankInfo) (env.image j))).flatten ∧
    resolveImage (artworks.getD i blankInfo) (env.image i) ≠ [] ∧
    (∀ w ∈ resolveImage (artworks.getD i blankInfo) (env.image i),
      w.toArtworkInfo = artworks.getD i blankInfo ∧
      w.imageUrl = placeholderImageUrl ((artworks.getD i blankInfo).title) ∧
      w.imageUrl ≠ "") ∧
    (∃ w ∈ fetchLoop env.image 0 artworks,
      w.toArtworkInfo = artworks.getD i blankInfo ∧
      w.imageUrl = placeholderImageUrl ((artworks.getD i blankInfo).title)) := by
  have hjoin : fetchLoop env.image 0 artworks
      = ((List.range artworks.length).map
          (fun j => resolveImage (artworks.getD j blankInfo) (env.image j))).flatten := by
    rw [fetchLoop_join env.image artworks 0]
    simp only [Nat.zero_add]
  refine ⟨by rw [fetchArtworkImages, hl, hcl]; rfl, hjoin,
    resolveImage_ne_nil _ _, ?_, ?_⟩
  · intro w hw
    have hurl := resolveImage_fail_urls _ _ hfail w hw
    refine ⟨resolveImage_mem_toInfo _ _ w hw, hurl, ?_⟩
    rw [hurl]
    exact placeholderImageUrl_ne_empty _
  · refine ⟨{ toArtworkInfo := artworks.getD i blankInfo
              imageUrl := placeholderImageUrl ((artworks.getD i blankInfo).title) },
      ?_, rfl, rfl⟩
    rw [hjoin]
    refine List.mem_flatten.mpr
      ⟨resolveImage (artworks.getD i blankInfo) (env.image i), ?_,
        placeholder_mem_resolveImage _ _ hfail⟩
    exact List.mem_map.mpr ⟨i, List.mem_range.mpr hi, rfl⟩

/-- Witness for C2 at a concrete input: a single candidate whose image
resolution throws. -/
theorem claimC2_witness :
    fetchArtworkImages exEnvImageFail [blankInfo]
      = .ok (fetchLoop exEnvImageFail.image 0 [blankInfo]) ∧
    fetchLoop exEnvImageFail.image 0 [blankInfo]
      = ((List.range [blankInfo].length).map
          (fun j => resolveImage ([blankInfo].getD j blankInfo)
            (exEnvImageFail.image j))).flatten ∧
    resolveImage ([blankInfo].getD 0 blankInfo) (exEnvImageFail.image 0) ≠ [] ∧
    (∀ w ∈ resolveImage ([blankInfo].getD 0 blankInfo) (exEnvImageFail.image 0),
      w.toArtworkInfo = [blankInfo].getD 0 blankInfo ∧
      w.imageUrl = placeholderImageUrl (([blankInfo].getD 0 blankInfo).title) ∧
      w.imageUrl ≠ "") ∧
    (∃ w ∈ fetchLoop exEnvImageFail.image 0 [blankInfo],
      w.toArtworkInfo = [blankInfo].getD 0 blankInfo ∧
      w.imageUrl = placeholderImageUrl (([blankInfo].getD 0 blankInfo).title)) :=
  claimC2_image_failures_isolated [blankInfo] exEnvImageFail 0 rfl rfl
    (by decide) (Or.inl rfl)

/-- C3: in the annotation stage, an item whose annotation extraction
fails gets the fixed fallback text in each of the five annotation fields
and is still included, in place, in the result list. -/
theorem claimC3_notes_failures_isolated (artworks : List ArtworkWithImage)
    (env : RunEnv) (i : Nat) (hi : i < artworks.length)
    (hfail : env.notes i = .failed) :
    (annotateArtworks env artworks).length = artworks.length ∧
    ((annotateArtworks env artworks).getD i blankAnnotated).toArtworkWithImage
      = artworks.getD i blankWithImage ∧
    ((annotateArtworks env artworks).getD i blankAnnotated).annotations.historicalContext
      = unavailableMsg ∧
    ((annotateArtworks env artworks).getD i blankAnnotated).annotations.artisticStyle
      = unavailableMsg ∧
    ((annotateArtworks env artworks).getD i blankAnnotated).annotations.biblicalNarrative
      = unavailableMsg ∧
    ((annotateArtworks env artworks).getD i blankAnnotated).annotations.interestingDetails
      = [unavailableMsg] ∧
    ((annotateArtworks env artworks).getD i blankAnnotated).annotations.uniqueInterpretation
      = unavailableMsg := by
  have hitem : (annotateArtworks env artworks).getD i blankAnnotated
      = annotateOne (artworks.getD i blankWithImage) (env.notes i) := by
    rw [annotateArtworks, annotateLoop_getD env.notes artworks 0 i hi, Nat.zero_add]
  rw [hitem, hfail]
  exact ⟨annotateArtworks_length env artworks, rfl, rfl, rfl, rfl, rfl, rfl⟩

/-- Witness for C3 at a concrete input: a single artwork whose
annotation extraction fails. -/
theorem claimC3_witness :
    (annotateArtworks exEnvNotesFail [blankWithImage]).length = [blankWithImage].length ∧
    ((annotateArtworks exEnvNotesFail [blankWithImage]).getD 0 blankAnnotated).toArtworkWithImage
      = [blankWithImage].getD 0 blankWithImage ∧
    ((annotateArtworks exEnvNotesFail [blankWithImage]).getD 0 blankAnnotated).annotations.historicalContext
      = unavailableMsg ∧
    ((annotateArtworks exEnvNotesFail [blankWithImage]).getD 0 blankAnnotated).annotations.artisticStyle
      = unavailableMsg ∧
    ((annotateArtworks exEnvNotesFail [blankWithImage]).getD 0 blankAnnotated).annotations.biblicalNarrative
      = unavailableMsg ∧
    ((annotateArtworks exEnvNotesFail [blankWithImage]).getD 0 blankAnnotated).annotations.interestingDetails
      = [unavailableMsg] ∧
    ((annotateArtworks exEnvNotesFail [blankWithImage]).getD 0 blankAnnotated).annotations.uniqueInterpretation
      = unavailableMsg :=
  claimC3_notes_failures_isolated [blankWithImage] exEnvNotesFail 0 (by decide) rfl

/-- C10: within one research run, the ids synthesized for the parsed
candidates (run timestamp plus position index) are pairwise distinct. -/
theorem claimC10_ids_distinct (env : RunEnv) (arts : List ArtworkInfo)
    (h : researchArtworks env = .ok arts) :
    (arts.map (fun a => a.id)).Nodup := by
  rcases henv : env.research with _ | ⟨a, rest⟩
  · rw [researchArtworks, henv] at h
    cases h
  · rw [researchArtworks, henv] at h
    injection h with h2
    subst h2
    rw [buildArtworks_map_id]
    refine List.Nodup.map ?_ (List.nodup_range _)
    intro x y hxy
    have hinj := mkArtworkId_injective env.now hxy
    omega

/-- Witness for C10 at a concrete input: the successful research
environment. -/
theorem claimC10_witness :
    ((buildArtworks 7 0 [exParsed]).map (fun a => a.id)).Nodup :=
  claimC10_ids_distinct exEnv (buildArtworks 7 0 [exParsed]) rfl

/-- C4 counterexample: with a single research candidate whose
`page.close()` rejects after the placeholder was pushed, the run reaches
`complete` with TWO selected works derived from the one candidate, so
the length of `selectedWorks` does not equal the candidate count and the
claimed one-to-one positional correspondence fails. -/
theorem claimC4_counterexample :
    (∃ arts, researchArtworks exEnvCloseRejected = .ok arts ∧ arts.length = 1) ∧
    (∃ st works,
      (runPipeline [] "Jonah" exEnvCloseRejected).states.getLast? = some st ∧
      st.processingStage = some .complete ∧
      st.selectedWorks = some works ∧
      works.length = 2) :=
  ⟨⟨buildArtworks 7 0 [exParsed], rfl, rfl⟩, ⟨_, _, rfl, rfl, rfl, rfl⟩⟩

/-- C4 (amended): for every run that reaches `complete` in which no
per-item `page.close()` rejection occurs during image resolution, the
length of `selectedWorks` equals the number of candidates the Research
stage produced and the candidate order is preserved unchanged: the i-th
selected work derives from the i-th candidate.  (A rejected
`page.close()` after an item's push instead appends that artwork a
second time.) -/
theorem claimC4_order_preserved (c : Cache) (q : String) (env : RunEnv)
    (a : ParsedArtwork) (rest : List ParsedArtwork)
    (hr : env.research = .parsed a rest)
    (hl : env.launchOk = true) (hcl : env.closeOk = true)
    (hclean : ∀ j, j < (a :: rest).length → closedCleanly (env.image j) = true) :
    ∃ st works,
      (runPipeline c q env).states.getLast? = some st ∧
      st.processingStage = some .complete ∧
      st.selectedWorks = some works ∧
      works.length = (buildArtworks env.now 0 (a :: rest)).length ∧
      ∀ i, i < works.length →
        (works.getD i blankAnnotated).toArtworkWithImage.toArtworkInfo
          = (buildArtworks env.now 0 (a :: rest)).getD i blankInfo := by
  have hcleanB : ∀ j, j < (buildArtworks env.now 0 (a :: rest)).length →
      closedCleanly (env.image (0 + j)) = true := by
    intro j hj
    rw [Nat.zero_add]
    exact hclean j (by rwa [buildArtworks_length] at hj)
  have hfetchlen : (fetchLoop env.image 0 (buildArtworks env.now 0 (a :: rest))).length
      = (buildArtworks env.now 0 (a :: rest)).length :=
    fetchLoop_clean_length env.image (buildArtworks env.now 0 (a :: rest)) 0 hcleanB
  refine ⟨toCompleteState
      (toStage (toStage (toStage (analyzingState q env.now) .researching env.now)
        .fetching env.now) .annotating env.now)
      (annotateArtworks env (fetchLoop env.image 0 (buildArtworks env.now 0 (a :: rest))))
      env.now,
    annotateArtworks env (fetchLoop env.image 0 (buildArtworks env.now 0 (a :: rest))),
    ?_, rfl, rfl, ?_, ?_⟩
  · simp only [runPipeline, processArtQuery, researchArtworks, hr,
      fetchArtworkImages, hl, hcl, if_true]
    rfl
  · rw [annotateArtworks_length, hfetchlen]
  · intro i hi
    rw [annotateArtworks_length, hfetchlen] at hi
    rw [annotateArtworks,
      annotateLoop_getD env.notes _ 0 i (by rw [hfetchlen]; exact hi),
      Nat.zero_add, annotateOne_toWithImage,
      fetchLoop_clean_getD env.image _ 0 i hcleanB hi,
      Nat.zero_add, resolveOne_toInfo]

/-- Witness for the amended C4 at a concrete input: the fully successful
run, whose single page interaction closes cleanly. -/
theorem claimC4_witness :
    ∃ st works,
      (runPipeline [] "The Last Supper" exEnv).states.getLast? = some st ∧
      st.processingStage = some .complete ∧
      st.selectedWorks = some works ∧
      works.length = (buildArtworks exEnv.now 0 (exParsed :: [])).length ∧
      ∀ i, i < works.length →
        (works.getD i blankAnnotated).toArtworkWithImage.toArtworkInfo
          = (buildArtworks exEnv.now 0 (exParsed :: [])).getD i blankInfo :=
  claimC4_order_preserved [] "The Last Supper" exEnv exParsed [] rfl rfl rfl
    (by decide)

/-- C7 counterexample: research succeeds (a candidate list is parsed),
yet the run ends at `error`, because `puppeteer.launch` throws in the
fetching stage — a failure that is neither a Research-stage failure nor
absorbed by per-item placeholder substitution. -/
theorem claimC7_counterexample :
    (∃ arts, researchArtworks exEnvLaunchFail = .ok arts) ∧
    ((runPipeline [] "The Flood" exEnvLaunchFail).states.map stageOf).getLast?
      = some .error :=
  ⟨⟨buildArtworks 7 0 [exParsed], rfl⟩, rfl⟩

/-- C7 (amended): a run ends at `error` exactly when Research fails or
the shared browser session fails to launch or close in the fetching
stage; every per-item image or annotation failure is absorbed, so once
Research succeeds and the browser session launches and closes cleanly
the run always ends at `complete`. -/
theorem claimC7_amended (c : Cache) (q : String) (env : RunEnv) :
    (((runPipeline c q env).states.map stageOf).getLast? = some .error
      ↔ (env.research = .failure ∨ env.launchOk = false ∨ env.closeOk = false)) ∧
    (((runPipeline c q env).states.map stageOf).getLast? = some .complete
      ↔ ¬(env.research = .failure ∨ env.launchOk = false ∨ env.closeOk = false)) := by
  rcases henv : env.research with _ | ⟨a, rest⟩ <;> rcases hl : env.launchOk <;>
    rcases hcl : env.closeOk <;>
    simp [runPipeline, processArtQuery, researchArtworks, henv,
      fetchArtworkImages, hl, hcl, stageOf, toStage, toErrorState, toCompleteState,
      analyzingState]

/-- C1: the stage trace of every pipeline run starts at `analyzing` and
follows only the allowed transitions `analyzing → researching → fetching
→ annotating → complete`, with `error` entered only from the four active
stages; `complete` and `error` appear only as the final stage of the
trace (terminal for the submission), and no state of the run after the
submission itself is `analyzing` or `idle` (only a new submission resets
to `analyzing`). -/
theorem claimC1_stage_machine (c : Cache) (q : String) (env : RunEnv) :
    List.Chain' (fun a b => claimStep a b = true)
      ((runPipeline c q env).states.map stageOf) ∧
    ((runPipeline c q env).states.map stageOf).head? = some .analyzing ∧
    (((runPipeline c q env).states.map stageOf).getLast? = some .complete ∨
      ((runPipeline c q env).states.map stageOf).getLast? = some .error) ∧
    (∀ st ∈ ((runPipeline c q env).states.map stageOf).dropLast,
      st ≠ .complete ∧ st ≠ .error) ∧
    (∀ st ∈ ((runPipeline c q env).states.map stageOf).tail,
      st ≠ .analyzing ∧ st ≠ .idle) := by
  rcases henv : env.research with _ | ⟨a, rest⟩ <;> rcases hl : env.launchOk <;>
    rcases hcl : env.closeOk <;>
    simp [runPipeline, processArtQuery, researchArtworks, henv,
      fetchArtworkImages, hl, hcl, stageOf, toStage, toErrorState, toCompleteState,
      analyzingState, claimStep]

/-- C8: in every reachable agent state, an error message is present only
at stage `error`, and `selectedWorks` is present only at stage `complete`
(it is only ever written by the mutation that sets `complete`). -/
theorem claimC8_field_coupling (s : ArtAgentState) (c : Cache)
    (h : Reachable s c) :
    (s.error.isSome → s.processingStage = some .error) ∧
    (s.selectedWorks.isSome → s.processingStage = some .complete) := by
  have hinv := (reachable_inv h).1
  exact ⟨hinv.1, hinv.2.1⟩

/-- Witness for C8 at a concrete reachable state: the initial state. -/
theorem claimC8_witness :
    (initialState.error.isSome → initialState.processingStage = some .error) ∧
    (initialState.selectedWorks.isSome →
      initialState.processingStage = some .complete) :=
  claimC8_field_coupling initialState [] Reachable.init

/-- C6: `/results` answers with the not-ready response (a normal message
carrying the current stage, not an error response) whenever the stage is
anything but `complete`, and with the query and a non-empty artworks list
whenever the stage is `complete`. -/
theorem claimC6_results_endpoint (s : ArtAgentState) (c : Cache)
    (h : Reachable s c) :
    (s.processingStage ≠ some .complete →
      resultsResponse s = .notReady (stageOf s) s.error) ∧
    (s.processingStage = some .complete →
      ∃ qv works, s.currentQuery = some qv ∧ s.selectedWorks = some works ∧
        works ≠ [] ∧ resultsResponse s = .ready (some qv) (some works)) := by
  constructor
  · intro hne
    rw [resultsResponse, if_neg hne]
  · intro hc2
    obtain ⟨works, hw, hne, hq⟩ := (reachable_inv h).1.2.2 hc2
    obtain ⟨qv, hqv⟩ := Option.isSome_iff_exists.mp hq
    exact ⟨qv, works, hqv, hw, hne, by rw [resultsResponse, if_pos hc2, hqv, hw]⟩

/-- Witness for C6 at a concrete reachable state: the initial state. -/
theorem claimC6_witness :
    (initialState.processingStage ≠ some .complete →
      resultsResponse initialState = .notReady (stageOf initialState) initialState.error) ∧
    (initialState.processingStage = some .complete →
      ∃ qv works, initialState.currentQuery = some qv ∧
        initialState.selectedWorks = some works ∧ works ≠ [] ∧
        resultsResponse initialState = .ready (some qv) (some works)) :=
  claimC6_results_endpoint initialState [] Reachable.init

/-- C9: a connecting channel immediately receives the state snapshot
(stage defaulting to `idle`, query, error) as its first message, and —
already at connect time, before any further mutation — additionally the
results message with the query and artworks whenever the stage is
`complete`. -/
theorem claimC9_connect_snapshot (s : ArtAgentState) (c : Cache)
    (h : Reachable s c) :
    (onConnect s).head? = some (WsMsg.stateMsg (stageOf s) s.currentQuery s.error) ∧
    (s.processingStage ≠ some .complete →
      onConnect s = [WsMsg.stateMsg (stageOf s) s.currentQuery s.error]) ∧
    (s.processingStage = some .complete →
      ∃ works, s.selectedWorks = some works ∧
        onConnect s = [WsMsg.stateMsg .complete s.currentQuery s.error,
          WsMsg.resultsMsg s.currentQuery works]) := by
  refine ⟨rfl, ?_, ?_⟩
  · intro hne
    rcases hst : s.processingStage with _ | st
    · simp [onConnect, hst]
    · cases st with
      | complete => exact absurd hst hne
      | _ => simp [onConnect, hst, stageOf]
  · intro hc2
    obtain ⟨works, hw, _, _⟩ := (reachable_inv h).1.2.2 hc2
    exact ⟨works, hw, by simp [onConnect, hc2, hw, stageOf]⟩

/-- Witness for C9 at a concrete reachable state: the initial state. -/
theorem claimC9_witness :
    (onConnect initialState).head?
      = some (WsMsg.stateMsg (stageOf initialState) initialState.currentQuery
          initialState.error) ∧
    (initialState.processingStage ≠ some .complete →
      onConnect initialState
        = [WsMsg.stateMsg (stageOf initialState) initialState.currentQuery
            initialState.error]) ∧
    (initialState.processingStage = some .complete →
      ∃ works, initialState.selectedWorks = some works ∧
        onConnect initialState
          = [WsMsg.stateMsg .complete initialState.currentQuery initialState.error,
            WsMsg.resultsMsg initialState.currentQuery works]) :=
  claimC9_connect_snapshot initialState [] Reachable.init

/-- C5 counterexample: after a completed HTTP run for the query "Moses"
whose result set sits in the cache, re-submitting the very same query
over the push channel does NOT transition directly to `complete` and
DOES invoke the text-completion client (twice) and the image resolver:
`onMessage` never consults the cache. -/
theorem claimC5_counterexample :
    cacheGet (submitHTTP initialState [] "Moses" exEnv).cache "Moses"
      = some (annotateArtworks exEnv
          (fetchLoop exEnv.image 0 (buildArtworks 7 0 [exParsed]))) ∧
    (submitWS initialState (submitHTTP initialState [] "Moses" exEnv).cache
        "Moses" exEnv).completionCalls = 2 ∧
    (submitWS initialState (submitHTTP initialState [] "Moses" exEnv).cache
        "Moses" exEnv).resolverCalls = 1 ∧
    ((submitWS initialState (submitHTTP initialState [] "Moses" exEnv).cache
        "Moses" exEnv).states.map stageOf)
      = [.analyzing, .researching, .fetching, .annotating, .complete] := by
  refine ⟨rfl, rfl, rfl, rfl⟩

/-- C5 (amended): the short-circuit holds for HTTP submissions keyed by
the exact raw query text: after a successful run whose result was
written to the cache, re-submitting the same query string over HTTP
moves directly to `complete` in a single mutation, with zero
text-completion and zero image-resolver invocations, returning exactly
the artworks of the first run.  (Push-channel submissions never consult
the cache, and the cache key is the raw, unnormalized query text.) -/
theorem claimC5_amended (s s2 : ArtAgentState) (c : Cache) (q : String)
    (env1 env2 : RunEnv) (a : ParsedArtwork) (rest : List ParsedArtwork)
    (hq : q ≠ "") (hmiss : cacheGet c q = none)
    (hr : env1.research = .parsed a rest)
    (hl : env1.launchOk = true) (hcl : env1.closeOk = true)
    (hhc : env1.hasCache = true) (hput : env1.cachePutOk = true)
    (hhc2 : env2.hasCache = true) (hget2 : env2.cacheGetOk = true) :
    ∃ st works,
      (submitHTTP s c q env1).states.getLast? = some st ∧
      st.processingStage = some .complete ∧
      st.selectedWorks = some works ∧
      cacheGet (submitHTTP s c q env1).cache q = some works ∧
      (submitHTTP s2 (submitHTTP s c q env1).cache q env2).states
        = [cachedCompleteState q works env2.now] ∧
      (submitHTTP s2 (submitHTTP s c q env1).cache q env2).completionCalls = 0 ∧
      (submitHTTP s2 (submitHTTP s c q env1).cache q env2).resolverCalls = 0 ∧
      (submitHTTP s2 (submitHTTP s c q env1).cache q env2).cache
        = (submitHTTP s c q env1).cache := by
  have hrun : submitHTTP s c q env1 = runPipeline c q env1 := by
    rw [submitHTTP, if_neg hq]
    rcases hget1 : env1.cacheGetOk
    · simp [hget1]
    · simp [hget1, hhc, hmiss]
  have hworkslen :
      0 < (annotateArtworks env1
        (fetchLoop env1.image 0 (buildArtworks env1.now 0 (a :: rest)))).length := by
    rw [annotateArtworks_length]
    exact fetchLoop_length_pos env1.image 0 _ (by simp [buildArtworks])
  have hcache1 : (runPipeline c q env1).cache
      = cachePut c q (annotateArtworks env1
          (fetchLoop env1.image 0 (buildArtworks env1.now 0 (a :: rest)))) := by
    simp only [runPipeline, processArtQuery, researchArtworks, hr,
      fetchArtworkImages, hl, hcl, if_true]
    simp [hhc, hput, hworkslen]
  have hlast : (runPipeline c q env1).states.getLast?
      = some (toCompleteState
          (toStage (toStage (toStage (analyzingState q env1.now) .researching env1.now)
            .fetching env1.now) .annotating env1.now)
          (annotateArtworks env1
            (fetchLoop env1.image 0 (buildArtworks env1.now 0 (a :: rest))))
          env1.now) := by
    simp only [runPipeline, processArtQuery, researchArtworks, hr,
      fetchArtworkImages, hl, hcl, if_true]
    rfl
  have hgetworks : cacheGet (cachePut c q (annotateArtworks env1
      (fetchLoop env1.image 0 (buildArtworks env1.now 0 (a :: rest))))) q
      = some (annotateArtworks env1
          (fetchLoop env1.image 0 (buildArtworks env1.now 0 (a :: rest)))) := by
    simp [cacheGet, cachePut]
  have hsecond : submitHTTP s2 (submitHTTP s c q env1).cache q env2
      = ⟨[cachedCompleteState q (annotateArtworks env1
            (fetchLoop env1.image 0 (buildArtworks env1.now 0 (a :: rest))))
            env2.now],
          (submitHTTP s c q env1).cache, 0, 0⟩ := by
    rw [submitHTTP, if_neg hq, hhc2, hget2]
    rw [hrun, hcache1]
    simp only [Bool.and_self, if_true, hgetworks]
  refine ⟨_, annotateArtworks env1
      (fetchLoop env1.image 0 (buildArtworks env1.now 0 (a :: rest))),
    by rw [hrun, hlast], rfl, rfl, by rw [hrun, hcache1, hgetworks],
    by rw [hsecond], by rw [hsecond], by rw [hsecond], by rw [hsecond]⟩

/-- Witness for the amended C5 at a concrete input: the query "Moses"
run twice over HTTP with the successful environment. -/
theorem claimC5_witness :
    ∃ st works,
      (submitHTTP initialState [] "Moses" exEnv).states.getLast? = some st ∧
      st.processingStage = some .complete ∧
      st.selectedWorks = some works ∧
      cacheGet (submitHTTP initialState [] "Moses" exEnv).cache "Moses" = some works ∧
      (submitHTTP initialState (submitHTTP initialState [] "Moses" exEnv).cache
          "Moses" exEnv).states
        = [cachedCompleteState "Moses" works exEnv.now] ∧
      (submitHTTP initialState (submitHTTP initialState [] "Moses" exEnv).cache
          "Moses" exEnv).completionCalls = 0 ∧
      (submitHTTP initialState (submitHTTP initialState [] "Moses" exEnv).cache
          "Moses" exEnv).resolverCalls = 0 ∧
      (submitHTTP initialState (submitHTTP initialState [] "Moses" exEnv).cache
          "Moses" exEnv).cache
        = (submitHTTP initialState [] "Moses" exEnv).cache :=
  claimC5_amended initialState initialState [] "Moses" exEnv exEnv exParsed []
    (by decide) rfl rfl rfl rfl rfl rfl rfl rfl

end ChristianArt
